import Mathlib

/-!
Shallow embedding of the build-graph / build-strategy subsystem of the
repository (samcli/lib/build/build_graph.py and
samcli/lib/build/build_strategy.py), together with theorems settling the
specification claims about it.

Python dictionaries with string keys and values are embedded as association
lists (`PyDict`); Python dict literals never carry duplicate keys, so the
claims that compare metadata dictionaries take a no-duplicate-keys
hypothesis where the comparison needs it.  The filesystem touched by the
strategies is embedded as a partial map from directory paths to artifact
contents (`FS`), with `copytree`/`rmtree` as point updates, and the external
build callback as an abstract function producing the built content.
-/

namespace SamBuild

/-- Association-list embedding of a Python `Dict[str, str]`. -/
abbrev PyDict := List (String × String)

/-- `d.get(k, None)` on a Python dict: first entry with the given key. -/
def dictGet : PyDict → String → Option String
  | [], _ => none
  | p :: rest, k => if p.1 == k then some p.2 else dictGet rest k

/-- Python `==` on two string dicts: every entry of each is found in the
other with the same value. -/
def dictEqb (a b : PyDict) : Bool :=
  (a.all fun p => dictGet b p.1 == some p.2) && (b.all fun p => dictGet a p.1 == some p.2)

/-- A function declaration coming from the template (external `Function`
entity): the strategies read `name` and `handler`, the persisted document
stores `functionname`. -/
structure PyFunction where
  name : String
  handler : String
  functionname : String
deriving DecidableEq, Repr

/-- External layer entity attached to a `LayerBuildDefinition`. -/
structure Layer where
  name : String
  codeuri : String
  build_method : Option String
  compatible_runtimes : List String
deriving DecidableEq, Repr

/-- `FunctionBuildDefinition` from build_graph.py: runtime, codeuri,
metadata, the list of attached functions, plus the `AbstractBuildDefinition`
fields `uuid` and `source_md5`. -/
structure FunctionBuildDefinition where
  uuid : String
  source_md5 : String
  runtime : String
  codeuri : String
  metadata : PyDict
  functions : List PyFunction
deriving DecidableEq, Repr

/-- `LayerBuildDefinition` from build_graph.py. -/
structure LayerBuildDefinition where
  uuid : String
  source_md5 : String
  name : String
  codeuri : String
  build_method : Option String
  compatible_runtimes : List String
  layer : Option Layer
deriving DecidableEq, Repr

/-- `FunctionBuildDefinition.__init__`: a falsy `metadata` argument (None or
an empty dict) is stored as `{}`; the function list starts empty.  The
nondeterministic `uuid4()` is taken as a parameter. -/
def mkFunctionBuildDefinition (uuid runtime codeuri : String)
    (metadata : Option PyDict) (source_md5 : String) : FunctionBuildDefinition :=
  { uuid := uuid
    source_md5 := source_md5
    runtime := runtime
    codeuri := codeuri
    metadata := match metadata with
      | none => []
      | some d => if d.isEmpty then [] else d
    functions := [] }

/-- `FunctionBuildDefinition.__eq__`: a definition whose metadata is
non-empty and declares `BuildMethod == "makefile"` equals nothing; otherwise
compare runtime, codeuri and metadata. -/
def FunctionBuildDefinition.eqb (self other : FunctionBuildDefinition) : Bool :=
  if (!self.metadata.isEmpty) && (dictGet self.metadata "BuildMethod" == some "makefile") then
    false
  else
    self.runtime == other.runtime && self.codeuri == other.codeuri
      && dictEqb self.metadata other.metadata

/-- `LayerBuildDefinition.__eq__`: name, codeuri, build method and
compatible runtimes; the attached layer is not part of equality. -/
def LayerBuildDefinition.eqb (self other : LayerBuildDefinition) : Bool :=
  self.name == other.name && self.codeuri == other.codeuri
    && self.build_method == other.build_method
    && self.compatible_runtimes == other.compatible_runtimes

/-- `FunctionBuildDefinition.add_function`. -/
def attachFunction (fbd : FunctionBuildDefinition) (f : PyFunction) : FunctionBuildDefinition :=
  { fbd with functions := fbd.functions ++ [f] }

/-- `BuildGraph.put_function_build_definition` acting on the list of
function definitions: the first definition equal (per `__eq__`, evaluated
with the existing definition on the left, as Python `in`/`index` do) to the
incoming one gets the function attached and the incoming definition is
discarded; with no equal definition the incoming one is appended with the
function attached. -/
def putFunctionBuildDefinition :
    List FunctionBuildDefinition → FunctionBuildDefinition → PyFunction →
      List FunctionBuildDefinition
  | [], fbd, f => [attachFunction fbd f]
  | e :: rest, fbd, f =>
    if e.eqb fbd then attachFunction e f :: rest
    else e :: putFunctionBuildDefinition rest fbd f

/-- `BuildGraph.put_layer_build_definition`: on a match the existing
definition's layer reference is replaced, otherwise the incoming definition
is appended carrying the layer. -/
def putLayerBuildDefinition :
    List LayerBuildDefinition → LayerBuildDefinition → Layer →
      List LayerBuildDefinition
  | [], lbd, l => [{ lbd with layer := some l }]
  | e :: rest, lbd, l =>
    if e.eqb lbd then { e with layer := some l } :: rest
    else e :: putLayerBuildDefinition rest lbd l

/-- In-memory `BuildGraph` state: the two definition lists in insertion
order. -/
structure BuildGraph where
  function_build_definitions : List FunctionBuildDefinition
  layer_build_definitions : List LayerBuildDefinition
deriving DecidableEq, Repr

/-- One entry of the `function_build_definitions` toml table, as produced by
`_function_build_definition_to_toml_table`: the metadata field is present
only when the metadata dict is truthy (non-empty). -/
structure FunctionToml where
  codeuri : String
  runtime : String
  source_md5 : String
  functions : List String
  metadata : Option PyDict
deriving DecidableEq, Repr

/-- One entry of the `layer_build_definitions` toml table, as produced by
`_layer_build_definition_to_toml_table` (the `layer` field stores the
attached layer's name and is ignored on read). -/
structure LayerToml where
  layer_name : String
  codeuri : String
  build_method : Option String
  compatible_runtimes : List String
  source_md5 : String
  layer : String
deriving DecidableEq, Repr

/-- The persisted build.toml document: the two top-level tables keyed by
definition uuid, in insertion order. -/
structure PersistedDoc where
  function_build_definitions : List (String × FunctionToml)
  layer_build_definitions : List (String × LayerToml)
deriving DecidableEq, Repr

/-- `_function_build_definition_to_toml_table`. -/
def functionBuildDefinitionToTomlTable (fbd : FunctionBuildDefinition) : FunctionToml :=
  { codeuri := fbd.codeuri
    runtime := fbd.runtime
    source_md5 := fbd.source_md5
    functions := fbd.functions.map PyFunction.functionname
    metadata := if fbd.metadata.isEmpty then none else some fbd.metadata }

/-- `_layer_build_definition_to_toml_table`: reads `layer.name`, so it fails
(Python `AttributeError`) when no layer is attached. -/
def layerBuildDefinitionToTomlTable (lbd : LayerBuildDefinition) : Option LayerToml :=
  lbd.layer.map fun l =>
    { layer_name := lbd.name
      codeuri := lbd.codeuri
      build_method := lbd.build_method
      compatible_runtimes := lbd.compatible_runtimes
      source_md5 := lbd.source_md5
      layer := l.name }

/-- `_toml_table_to_function_build_definition`: rebuilt through the
constructor (so a missing/empty metadata field becomes `{}`), with the table
key overwriting the freshly generated uuid, and an empty function list. -/
def tomlTableToFunctionBuildDefinition (uuid : String) (t : FunctionToml) :
    FunctionBuildDefinition :=
  { mkFunctionBuildDefinition uuid t.runtime t.codeuri t.metadata t.source_md5 with
    uuid := uuid }

/-- `_toml_table_to_layer_build_definition`: the constructor leaves the
attached layer `None`; the table key overwrites the uuid. -/
def tomlTableToLayerBuildDefinition (uuid : String) (t : LayerToml) :
    LayerBuildDefinition :=
  { uuid := uuid
    source_md5 := t.source_md5
    name := t.layer_name
    codeuri := t.codeuri
    build_method := t.build_method
    compatible_runtimes := t.compatible_runtimes
    layer := none }

/-- Traversal of a list under an `Option`-valued function; used to model a
write pass that raises on the first failing entry. -/
def optionTraverse (f : β → Option γ) : List β → Option (List γ)
  | [] => some []
  | b :: rest =>
    match f b, optionTraverse f rest with
    | some c, some cs => some (c :: cs)
    | _, _ => none

/-- `BuildGraph._write`: serialize every definition under its uuid.  The
whole write fails (is `none`) when some layer definition has no attached
layer, since `_layer_build_definition_to_toml_table` dereferences it. -/
def writeGraph (g : BuildGraph) : Option PersistedDoc :=
  (optionTraverse
      (fun lbd => (layerBuildDefinitionToTomlTable lbd).map fun t => (lbd.uuid, t))
      g.layer_build_definitions).map
    fun layers =>
      { function_build_definitions :=
          g.function_build_definitions.map fun fbd =>
            (fbd.uuid, functionBuildDefinitionToTomlTable fbd)
        layer_build_definitions := layers }

/-- The loop bodies of `BuildGraph._read`: every table entry becomes a
definition with an empty function list / no attached layer. -/
def graphOfDoc (doc : PersistedDoc) : BuildGraph :=
  { function_build_definitions :=
      doc.function_build_definitions.map fun kv =>
        tomlTableToFunctionBuildDefinition kv.1 kv.2
    layer_build_definitions :=
      doc.layer_build_definitions.map fun kv =>
        tomlTableToLayerBuildDefinition kv.1 kv.2 }

/-- State of the build.toml file seen by `BuildGraph._read`: the file may be
absent (`read_text` raises `OSError`), present but unparsable
(`tomlkit.loads` raises), or well formed. -/
inductive BuildTomlFile where
  | absent
  | malformed (msg : String)
  | wellFormed (doc : PersistedDoc)
deriving DecidableEq, Repr

/-- An empty toml document, as used by `_read` when the file is absent. -/
def emptyPersistedDoc : PersistedDoc :=
  { function_build_definitions := [], layer_build_definitions := [] }

/-- `BuildGraph.__init__` / `_read`: an absent file is swallowed
(`except OSError`) and leaves the empty document; a parse failure is not
caught and propagates to the caller; otherwise the document is read into
definitions. -/
def buildGraphRead : BuildTomlFile → Except String BuildGraph
  | .absent => .ok (graphOfDoc emptyPersistedDoc)
  | .malformed m => .error m
  | .wellFormed doc => .ok (graphOfDoc doc)

/-- `BuildGraph.clean_redundant_functions_and_update`: keep function
definitions with a non-empty function list and layer definitions with a
truthy layer; write the document iff `persist`.  The second component is
`some w` exactly when the write was performed, `w` being the written
document (or `none` if the write itself failed). -/
def cleanRedundantFunctionsAndUpdate (g : BuildGraph) (persist : Bool) :
    BuildGraph × Option (Option PersistedDoc) :=
  let g2 : BuildGraph :=
    { function_build_definitions :=
        g.function_build_definitions.filter fun fbd => decide (0 < fbd.functions.length)
      layer_build_definitions :=
        g.layer_build_definitions.filter fun lbd => lbd.layer.isSome }
  (g2, if persist then some (writeGraph g2) else none)

/-! ## Build strategies (build_strategy.py) -/

/-- The filesystem seen by the strategies: a partial map from directory
paths to the artifact content stored there (`α` abstracts the content of a
directory tree). -/
abbrev FS (α : Type) := String → Option α

/-- `pathlib.Path(a, b)`. -/
def pathJoin (a b : String) : String := a ++ "/" ++ b

/-- `osutils.copytree(src, dst)`: the destination now holds whatever the
source holds. -/
def copytree (src dst : String) (fs : FS α) : FS α :=
  fun p => if p = dst then fs src else fs p

/-- `shutil.rmtree(dir)`. -/
def rmtree (dir : String) (fs : FS α) : FS α :=
  fun p => if p = dir then none else fs p

/-- Python dict assignment `d[k] = v`: overwrite in place when the key is
present, append otherwise. -/
def dictInsert (d : PyDict) (k v : String) : PyDict :=
  if d.any fun p => p.1 == k then
    d.map fun p => if p.1 == k then (k, v) else p
  else d ++ [(k, v)]

/-- Python `d.update(e)`. -/
def dictUpdate (d e : PyDict) : PyDict :=
  e.foldl (fun acc p => dictInsert acc p.1 p.2) d

/-- Errors raised by the strategies:  `InvalidBuildGraphException` from
`_validate_functions` and `MissingBuildMethodException` from the layer
build. -/
inductive BuildError where
  | invalidBuildGraph (msg : String)
  | missingBuildMethod (msg : String)
deriving DecidableEq, Repr

/-- One invocation of the external `build_function` callback, with the
arguments the default strategy passes. -/
structure FunctionCallbackCall where
  name : String
  codeuri : String
  runtime : String
  handler : String
  directory : String
  metadata : PyDict
deriving DecidableEq, Repr

/-- The copy loop shared by `DefaultBuildStrategy.build_single_function_definition`
and the valid-cache branch of `CachedBuildStrategy`: for every attached
function, copy `src` to `Path(build_dir, function.name)` and record that
directory under the function's name, accumulating the result dict. -/
def fanOutAux (src build_dir : String) (d : PyDict) (fs : FS α) :
    List PyFunction → PyDict × FS α
  | [] => (d, fs)
  | f :: rest =>
    fanOutAux src build_dir
      (dictInsert d f.name (pathJoin build_dir f.name))
      (copytree src (pathJoin build_dir f.name) fs) rest

/-- The copy loop started from an empty result dict. -/
def fanOut (src build_dir : String) (fs : FS α) (fns : List PyFunction) :
    PyDict × FS α :=
  fanOutAux src build_dir [] fs fns

/-- `DefaultBuildStrategy.build_single_function_definition`: validate the
function list (raising `InvalidBuildGraphException` when empty via
`get_function_name`), run the external build callback once into the
temporary directory, then fan the artifact out to every attached function's
output directory.  `buildFunction` abstracts the external compiler; the
fresh temporary directory is the `tempDir` parameter. -/
def defaultBuildSingleFunctionDefinition
    (buildFunction : String → String → String → String → String → PyDict → α)
    (build_dir tempDir : String) (fbd : FunctionBuildDefinition) (fs : FS α) :
    Except BuildError (PyDict × FS α × List FunctionCallbackCall) :=
  match fbd.functions with
  | [] => .error (.invalidBuildGraph
      "Build definition does not have any function definition to build")
  | f0 :: _ =>
    let content := buildFunction f0.name fbd.codeuri fbd.runtime f0.handler tempDir fbd.metadata
    let fs1 : FS α := fun p => if p = tempDir then some content else fs p
    let out := fanOut tempDir build_dir fs1 fbd.functions
    .ok (out.1, out.2,
      [{ name := f0.name, codeuri := fbd.codeuri, runtime := fbd.runtime,
         handler := f0.handler, directory := tempDir, metadata := fbd.metadata }])

/-- `DefaultBuildStrategy.build_single_layer_definition`: a layer whose
build method is `None` raises `MissingBuildMethodException` naming the
layer; otherwise the external layer builder is invoked and its output
directory recorded under the layer's name. -/
def defaultBuildSingleLayerDefinition
    (buildLayer : String → String → String → List String → String)
    (ld : LayerBuildDefinition) : Except BuildError PyDict :=
  match ld.layer with
  | none => .error (.invalidBuildGraph "no layer attached")
  | some layer =>
    match layer.build_method with
    | none => .error (.missingBuildMethod
        ("Layer " ++ layer.name ++ " cannot be build without BuildMethod. "
          ++ "Please provide BuildMethod in Metadata."))
    | some bm =>
      .ok [(layer.name, buildLayer layer.name layer.codeuri bm layer.compatible_runtimes)]

/-- `CachedBuildStrategy.build_single_function_definition`.  The checksum
utility is the abstract `dirChecksum`; the delegate strategy's
single-definition build is the abstract `delegate`, returning the result
dict and the filesystem after its writes.  The returned flag records
whether the delegate was invoked. -/
def cachedBuildSingleFunctionDefinition
    (delegate : FunctionBuildDefinition → FS α → Except BuildError (PyDict × FS α))
    (dirChecksum : String → String) (base_dir build_dir cache_dir : String)
    (fbd : FunctionBuildDefinition) (fs : FS α) :
    Except BuildError (PyDict × FunctionBuildDefinition × FS α × Bool) :=
  let source_md5 := dirChecksum (pathJoin base_dir fbd.codeuri)
  let cache_function_dir := pathJoin cache_dir fbd.uuid
  if (fs cache_function_dir).isNone || fbd.source_md5 != source_md5 then
    match delegate fbd fs with
    | .error e => .error e
    | .ok (build_result, fs1) =>
      let fs2 := if (fs1 cache_function_dir).isSome then rmtree cache_function_dir fs1 else fs1
      let fs3 := match build_result with
        | [] => fs2
        | (_, v) :: _ => copytree v cache_function_dir fs2
      .ok (build_result, { fbd with source_md5 := source_md5 }, fs3, true)
  else
    let out := fanOut cache_function_dir build_dir fs fbd.functions
    .ok (out.1, fbd, out.2, false)

/-- Result dict of a default-strategy single build (empty on error). -/
def buildResultDict : Except BuildError (PyDict × FS α × List FunctionCallbackCall) → PyDict
  | .ok r => r.1
  | .error _ => []

/-- Filesystem after a default-strategy single build (empty on error). -/
def buildResultFS : Except BuildError (PyDict × FS α × List FunctionCallbackCall) → FS α
  | .ok r => r.2.1
  | .error _ => fun _ => none

/-- Callback invocations of a default-strategy single build. -/
def buildResultCalls :
    Except BuildError (PyDict × FS α × List FunctionCallbackCall) → List FunctionCallbackCall
  | .ok r => r.2.2
  | .error _ => []

/-- Result dict of a cached single build (empty on error). -/
def cachedResultDict :
    Except BuildError (PyDict × FunctionBuildDefinition × FS α × Bool) → PyDict
  | .ok r => r.1
  | .error _ => []

/-- Definition state after a cached single build (none on error). -/
def cachedResultDef :
    Except BuildError (PyDict × FunctionBuildDefinition × FS α × Bool) →
      Option FunctionBuildDefinition
  | .ok r => some r.2.1
  | .error _ => none

/-- Filesystem after a cached single build (empty on error). -/
def cachedResultFS :
    Except BuildError (PyDict × FunctionBuildDefinition × FS α × Bool) → FS α
  | .ok r => r.2.2.1
  | .error _ => fun _ => none

/-- Whether the cached single build invoked the delegate (an error can only
come out of the delegate, so the error case counts as invoked). -/
def cachedResultInvoked :
    Except BuildError (PyDict × FunctionBuildDefinition × FS α × Bool) → Bool
  | .ok r => r.2.2.2
  | .error _ => true

/-- `BuildStrategy.build` with the per-definition builders abstracted:
an empty result dict updated with `_build_functions` (a fold of
`build_single_function_definition` results over the function definitions)
and then with `_build_layers` (same over the layer definitions). -/
def strategyBuild (bsf : FunctionBuildDefinition → PyDict)
    (bsl : LayerBuildDefinition → PyDict) (g : BuildGraph) : PyDict :=
  dictUpdate
    (dictUpdate []
      (g.function_build_definitions.foldl (fun acc fbd => dictUpdate acc (bsf fbd)) []))
    (g.layer_build_definitions.foldl (fun acc lbd => dictUpdate acc (bsl lbd)) [])

/-- Modelled from the spec: the `ParallelBuildStrategy` class is absent from
the source tree (only its unit tests import it).  Per spec section 4.5 it
schedules, for every function and then every layer definition of the graph,
one task calling the delegate's single-definition build, submitting all
tasks before awaiting any; this is the list of per-task result dicts in
submission order. -/
def parallelTaskResults (bsf : FunctionBuildDefinition → PyDict)
    (bsl : LayerBuildDefinition → PyDict) (g : BuildGraph) : List PyDict :=
  g.function_build_definitions.map bsf ++ g.layer_build_definitions.map bsl

/-- Modelled from the spec: the merge step of the absent
`ParallelBuildStrategy` — awaited task results (handed over in completion
order) merged into one mapping by successive dict updates. -/
def parallelMerge (completed : List PyDict) : PyDict :=
  completed.foldl dictUpdate []

/-- The method names defined in the `BuildGraph` class body
(build_graph.py); Python resolves attribute accesses against these at
runtime. -/
def buildGraphMethodNames : List String :=
  ["__init__", "get_function_build_definitions", "get_layer_build_definitions",
   "put_function_build_definition", "put_layer_build_definition",
   "clean_redundant_functions_and_update", "_read", "_write"]

/-- The graph method name that `CachedBuildStrategy._clean_redundant_cached`
(build_strategy.py line 235) invokes on its build graph. -/
def cleanRedundantCachedCalledMethod : String :=
  "clean_redundant_definitions_and_update"

/-! ## Helper lemmas -/

theorem dictGet_of_nodup {m : PyDict} {p : String × String}
    (hnd : (m.map Prod.fst).Nodup) (hp : p ∈ m) : dictGet m p.1 = some p.2 := by
  induction m with
  | nil => cases hp
  | cons q rest ih =>
    simp only [List.map_cons, List.nodup_cons] at hnd
    rcases List.mem_cons.mp hp with rfl | hrest
    · simp [dictGet]
    · have hne : q.1 ≠ p.1 := by
        intro h
        exact hnd.1 (h ▸ List.mem_map_of_mem Prod.fst hrest)
      simp [dictGet, hne, ih hnd.2 hrest]

theorem dictEqb_self {m : PyDict} (hnd : (m.map Prod.fst).Nodup) : dictEqb m m = true := by
  simp only [dictEqb, Bool.and_eq_true, List.all_eq_true]
  refine ⟨?_, ?_⟩ <;> exact fun p hp => by simp [dictGet_of_nodup hnd hp]

theorem mem_of_dictGet {m : PyDict} {k v : String} (h : dictGet m k = some v) :
    (k, v) ∈ m := by
  induction m with
  | nil => simp [dictGet] at h
  | cons q rest ih =>
    by_cases hq : q.1 = k
    · obtain ⟨a, b⟩ := q
      simp only at hq
      subst hq
      simp [dictGet] at h
      subst h
      exact List.mem_cons_self _ _
    · simp [dictGet, hq] at h
      exact List.mem_cons_of_mem _ (ih h)

theorem isEmpty_false_of_dictGet {m : PyDict} {k v : String}
    (h : dictGet m k = some v) : m.isEmpty = false := by
  cases m with
  | nil => simp [dictGet] at h
  | cons q rest => rfl

theorem eqb_congr_right {e o1 o2 : FunctionBuildDefinition}
    (hr : o1.runtime = o2.runtime) (hc : o1.codeuri = o2.codeuri)
    (hm : o1.metadata = o2.metadata) : e.eqb o1 = e.eqb o2 := by
  simp [FunctionBuildDefinition.eqb, hr, hc, hm]

theorem eqb_false_of_makefile {self other : FunctionBuildDefinition}
    (h : dictGet other.metadata "BuildMethod" = some "makefile") :
    self.eqb other = false := by
  unfold FunctionBuildDefinition.eqb
  by_cases hg : ((!self.metadata.isEmpty)
      && (dictGet self.metadata "BuildMethod" == some "makefile")) = true
  · simp [hg]
  · rw [if_neg hg]
    have hdq : dictEqb self.metadata other.metadata = false := by
      cases hq : dictEqb self.metadata other.metadata with
      | false => rfl
      | true =>
        exfalso
        have hmem : ("BuildMethod", "makefile") ∈ other.metadata := mem_of_dictGet h
        simp only [dictEqb, Bool.and_eq_true, List.all_eq_true] at hq
        have hget := hq.2 _ hmem
        simp only [beq_iff_eq] at hget
        exact hg (by simp [isEmpty_false_of_dictGet hget, hget])
    simp [hdq]

theorem putFunctionBuildDefinition_no_match {defs : List FunctionBuildDefinition}
    {fbd : FunctionBuildDefinition} (f : PyFunction)
    (h : ∀ e ∈ defs, e.eqb fbd = false) :
    putFunctionBuildDefinition defs fbd f = defs ++ [attachFunction fbd f] := by
  induction defs with
  | nil => rfl
  | cons e rest ih =>
    have he := h e (List.mem_cons_self e rest)
    simp [putFunctionBuildDefinition, he, ih fun x hx => h x (List.mem_cons_of_mem e hx)]

theorem putFunctionBuildDefinition_match_last {defs : List FunctionBuildDefinition}
    {x fbd : FunctionBuildDefinition} (f : PyFunction)
    (h : ∀ e ∈ defs, e.eqb fbd = false) (hx : x.eqb fbd = true) :
    putFunctionBuildDefinition (defs ++ [x]) fbd f = defs ++ [attachFunction x f] := by
  induction defs with
  | nil => simp [putFunctionBuildDefinition, hx]
  | cons e rest ih =>
    have he := h e (List.mem_cons_self e rest)
    simp [putFunctionBuildDefinition, he, ih fun y hy => h y (List.mem_cons_of_mem e hy)]

/-! ## Claims C1, C2, C10 -/

/-- C1: putting two build units whose definitions have identical runtime,
codeuri and metadata (the metadata not declaring a makefile build method)
onto the same graph leaves exactly one definition carrying both units: the
second definition is discarded and its unit attached to the first. -/
theorem putTwiceMergesIdenticalDefinitions
    (defs : List FunctionBuildDefinition) (fbd1 fbd2 : FunctionBuildDefinition)
    (f1 f2 : PyFunction)
    (hrt : fbd1.runtime = fbd2.runtime) (hcu : fbd1.codeuri = fbd2.codeuri)
    (hmd : fbd1.metadata = fbd2.metadata)
    (hnd : (fbd1.metadata.map Prod.fst).Nodup)
    (hmk : dictGet fbd1.metadata "BuildMethod" ≠ some "makefile")
    (hfns : fbd1.functions = [])
    (hno : ∀ e ∈ defs, e.eqb fbd1 = false)
    (hsep : ∀ e ∈ defs, f2 ∉ e.functions) :
    putFunctionBuildDefinition (putFunctionBuildDefinition defs fbd1 f1) fbd2 f2
        = defs ++ [{ fbd1 with functions := [f1, f2] }]
      ∧ (putFunctionBuildDefinition (putFunctionBuildDefinition defs fbd1 f1) fbd2 f2).countP
          (fun e => decide (f1 ∈ e.functions ∧ f2 ∈ e.functions)) = 1 := by
  have hstep1 : putFunctionBuildDefinition defs fbd1 f1 = defs ++ [attachFunction fbd1 f1] :=
    putFunctionBuildDefinition_no_match f1 hno
  have hno2 : ∀ e ∈ defs, e.eqb fbd2 = false := fun e he => by
    rw [← eqb_congr_right hrt hcu hmd]
    exact hno e he
  have hbm : (dictGet fbd1.metadata "BuildMethod" == some "makefile") = false :=
    beq_eq_false_iff_ne.mpr hmk
  have hmatch : (attachFunction fbd1 f1).eqb fbd2 = true := by
    simp [FunctionBuildDefinition.eqb, attachFunction, hbm, hrt, hcu, ← hmd, dictEqb_self hnd]
  have hstep2 : putFunctionBuildDefinition (defs ++ [attachFunction fbd1 f1]) fbd2 f2
      = defs ++ [attachFunction (attachFunction fbd1 f1) f2] :=
    putFunctionBuildDefinition_match_last f2 hno2 hmatch
  have hfinal : attachFunction (attachFunction fbd1 f1) f2
      = { fbd1 with functions := [f1, f2] } := by
    simp [attachFunction, hfns]
  refine ⟨by rw [hstep1, hstep2, hfinal], ?_⟩
  rw [hstep1, hstep2, hfinal, List.countP_append]
  have h0 : defs.countP (fun e => decide (f1 ∈ e.functions ∧ f2 ∈ e.functions)) = 0 := by
    rw [List.countP_eq_zero]
    intro e he
    simp [hsep e he]
  simp [h0, List.countP_cons]
  exact fun a ha _ => hsep a ha

def c1DefA : FunctionBuildDefinition :=
  { uuid := "uuid-a", source_md5 := "", runtime := "python3.8", codeuri := "src",
    metadata := [("k", "v")], functions := [] }

def c1DefB : FunctionBuildDefinition :=
  { uuid := "uuid-b", source_md5 := "", runtime := "python3.8", codeuri := "src",
    metadata := [("k", "v")], functions := [] }

def c1FunA : PyFunction := ⟨"FunA", "a.handler", "FunA"⟩

def c1FunB : PyFunction := ⟨"FunB", "b.handler", "FunB"⟩

theorem putTwiceMergesIdenticalDefinitions_witness :
    putFunctionBuildDefinition (putFunctionBuildDefinition [] c1DefA c1FunA) c1DefB c1FunB
      = [{ c1DefA with functions := [c1FunA, c1FunB] }] := by
  have h := putTwiceMergesIdenticalDefinitions [] c1DefA c1DefB c1FunA c1FunB rfl rfl rfl
    (by decide) (by decide) rfl (by simp) (by simp)
  simpa using h.1

/-- C2: a definition whose metadata declares BuildMethod == "makefile" never
merges with anything already in the graph (even an identical definition):
every put appends a fresh definition carrying only its own unit. -/
theorem makefileDefinitionNeverMerges
    (defs : List FunctionBuildDefinition) (fbd : FunctionBuildDefinition) (f : PyFunction)
    (hmk : dictGet fbd.metadata "BuildMethod" = some "makefile")
    (hfns : fbd.functions = []) :
    putFunctionBuildDefinition defs fbd f = defs ++ [{ fbd with functions := [f] }] := by
  have hno : ∀ e ∈ defs, e.eqb fbd = false := fun e _ => eqb_false_of_makefile hmk
  rw [putFunctionBuildDefinition_no_match f hno]
  simp [attachFunction, hfns]

def c2Def : FunctionBuildDefinition :=
  { uuid := "uuid-m", source_md5 := "", runtime := "provided", codeuri := "mk",
    metadata := [("BuildMethod", "makefile")], functions := [] }

def c2DefTwin : FunctionBuildDefinition := { c2Def with uuid := "uuid-n" }

def c2FunA : PyFunction := ⟨"MkA", "mk.handler", "MkA"⟩

def c2FunB : PyFunction := ⟨"MkB", "mk.handler", "MkB"⟩

theorem makefileDefinitionNeverMerges_witness :
    putFunctionBuildDefinition [{ c2Def with functions := [c2FunA] }] c2DefTwin c2FunB
      = [{ c2Def with functions := [c2FunA] }, { c2DefTwin with functions := [c2FunB] }] := by
  have h := makefileDefinitionNeverMerges [{ c2Def with functions := [c2FunA] }]
    c2DefTwin c2FunB (by decide) rfl
  simpa using h

/-- C10: a falsy metadata argument (None, or an explicitly empty dict) is
stored as the empty dict, such definitions are equal whenever runtime and
codeuri agree, and putting one unit with None metadata and one with empty
metadata merges them into the same graph node. -/
theorem nullMetadataStoredAsEmpty
    (defs : List FunctionBuildDefinition) (u1 u2 rt cu md5a md5b : String)
    (f1 f2 : PyFunction)
    (hno : ∀ e ∈ defs, e.eqb (mkFunctionBuildDefinition u1 rt cu none md5a) = false) :
    (mkFunctionBuildDefinition u1 rt cu none md5a).metadata = []
    ∧ (mkFunctionBuildDefinition u2 rt cu (some []) md5b).metadata = []
    ∧ (mkFunctionBuildDefinition u1 rt cu none md5a).eqb
        (mkFunctionBuildDefinition u2 rt cu (some []) md5b) = true
    ∧ putFunctionBuildDefinition
        (putFunctionBuildDefinition defs (mkFunctionBuildDefinition u1 rt cu none md5a) f1)
        (mkFunctionBuildDefinition u2 rt cu (some []) md5b) f2
      = defs ++ [{ mkFunctionBuildDefinition u1 rt cu none md5a with functions := [f1, f2] }] := by
  refine ⟨rfl, rfl, ?_, ?_⟩
  · simp [FunctionBuildDefinition.eqb, mkFunctionBuildDefinition, dictEqb]
  · have hstep1 := putFunctionBuildDefinition_no_match f1 hno
    have hno2 : ∀ e ∈ defs, e.eqb (mkFunctionBuildDefinition u2 rt cu (some []) md5b) = false :=
      fun e he => by
        have hcongr : e.eqb (mkFunctionBuildDefinition u1 rt cu none md5a)
            = e.eqb (mkFunctionBuildDefinition u2 rt cu (some []) md5b) :=
          eqb_congr_right rfl rfl rfl
        rw [← hcongr]
        exact hno e he
    have hmatch : (attachFunction (mkFunctionBuildDefinition u1 rt cu none md5a) f1).eqb
        (mkFunctionBuildDefinition u2 rt cu (some []) md5b) = true := by
      simp [FunctionBuildDefinition.eqb, attachFunction, mkFunctionBuildDefinition, dictEqb]
    have hstep2 := putFunctionBuildDefinition_match_last f2 hno2 hmatch
    rw [hstep1, hstep2]
    simp [attachFunction, mkFunctionBuildDefinition]

theorem nullMetadataStoredAsEmpty_witness :
    putFunctionBuildDefinition
        (putFunctionBuildDefinition []
          (mkFunctionBuildDefinition "ua" "python3.9" "dir" none "") ⟨"FA", "a.h", "FA"⟩)
        (mkFunctionBuildDefinition "ub" "python3.9" "dir" (some []) "") ⟨"FB", "b.h", "FB"⟩
      = [{ mkFunctionBuildDefinition "ua" "python3.9" "dir" none "" with
            functions := [⟨"FA", "a.h", "FA"⟩, ⟨"FB", "b.h", "FB"⟩] }] := by
  have h := nullMetadataStoredAsEmpty [] "ua" "ub" "python3.9" "dir" "" ""
    ⟨"FA", "a.h", "FA"⟩ ⟨"FB", "b.h", "FB"⟩ (by simp)
  simpa using h.2.2.2

/-! ## Claims C4, C6, C9 -/

/-- C4 (code bug): `CachedBuildStrategy._clean_redundant_cached` invokes
`clean_redundant_definitions_and_update` on its build graph, but the
`BuildGraph` class body defines no method of that name — its prune method is
`clean_redundant_functions_and_update` — so the teardown of
`CachedBuildStrategy.build` raises `AttributeError` instead of pruning the
graph and deleting stale cache directories. -/
theorem cachedTeardownCallsMissingGraphMethod :
    cleanRedundantCachedCalledMethod ∉ buildGraphMethodNames := by
  decide

/-- C6: after the prune operation every retained function definition has at
least one attached function and every retained layer definition a non-null
layer, no definition satisfying those conditions is removed, and the
persisted document is rewritten iff the persist argument is true. -/
theorem cleanRedundantInvariant (g : BuildGraph) (persist : Bool) :
    (∀ fbd ∈ (cleanRedundantFunctionsAndUpdate g persist).1.function_build_definitions,
        fbd.functions ≠ [])
    ∧ (∀ lbd ∈ (cleanRedundantFunctionsAndUpdate g persist).1.layer_build_definitions,
        lbd.layer.isSome = true)
    ∧ (∀ fbd ∈ g.function_build_definitions, fbd.functions ≠ [] →
        fbd ∈ (cleanRedundantFunctionsAndUpdate g persist).1.function_build_definitions)
    ∧ (∀ lbd ∈ g.layer_build_definitions, lbd.layer.isSome = true →
        lbd ∈ (cleanRedundantFunctionsAndUpdate g persist).1.layer_build_definitions)
    ∧ (cleanRedundantFunctionsAndUpdate g persist).2.isSome = persist := by
  refine ⟨?_, ?_, ?_, ?_, ?_⟩
  · intro fbd hf
    simp only [cleanRedundantFunctionsAndUpdate, List.mem_filter, decide_eq_true_eq] at hf
    exact List.length_pos.mp hf.2
  · intro lbd hl
    simp only [cleanRedundantFunctionsAndUpdate, List.mem_filter] at hl
    exact hl.2
  · intro fbd hf hne
    simp only [cleanRedundantFunctionsAndUpdate, List.mem_filter, decide_eq_true_eq]
    exact ⟨hf, List.length_pos.mpr hne⟩
  · intro lbd hl hsome
    simp only [cleanRedundantFunctionsAndUpdate, List.mem_filter]
    exact ⟨hl, hsome⟩
  · cases persist <;> simp [cleanRedundantFunctionsAndUpdate]

def c6Graph : BuildGraph :=
  { function_build_definitions :=
      [{ uuid := "fa", source_md5 := "", runtime := "python3.8", codeuri := "a",
         metadata := [], functions := [⟨"A", "a.h", "A"⟩] },
       { uuid := "fb", source_md5 := "", runtime := "python3.8", codeuri := "b",
         metadata := [], functions := [] }]
    layer_build_definitions :=
      [{ uuid := "la", source_md5 := "", name := "L", codeuri := "l",
         build_method := some "python3.8", compatible_runtimes := ["python3.8"],
         layer := none }] }

theorem cleanRedundantInvariant_witness :
    (cleanRedundantFunctionsAndUpdate c6Graph true).2.isSome = true :=
  (cleanRedundantInvariant c6Graph true).2.2.2.2

/-- C9: constructing a BuildGraph from an absent build.toml succeeds with an
empty graph (no definitions, no error); a present but unparsable file
surfaces the parse error to the caller. -/
theorem readAbsentEmptyMalformedError :
    buildGraphRead BuildTomlFile.absent
        = Except.ok { function_build_definitions := [], layer_build_definitions := [] }
    ∧ ∀ m, buildGraphRead (BuildTomlFile.malformed m) = Except.error m :=
  ⟨rfl, fun _ => rfl⟩

theorem readAbsentEmptyMalformedError_witness :
    buildGraphRead (BuildTomlFile.malformed "TOMLKitError") = Except.error "TOMLKitError" :=
  readAbsentEmptyMalformedError.2 "TOMLKitError"

/-! ## Claim C7: write/read round trip -/

theorem functionTomlRoundTrip (fbd : FunctionBuildDefinition) :
    tomlTableToFunctionBuildDefinition fbd.uuid (functionBuildDefinitionToTomlTable fbd)
      = { fbd with functions := [] } := by
  unfold tomlTableToFunctionBuildDefinition functionBuildDefinitionToTomlTable
    mkFunctionBuildDefinition
  by_cases hm : fbd.metadata.isEmpty
  · have hnil : fbd.metadata = [] := by
      cases hq : fbd.metadata with
      | nil => rfl
      | cons a l => rw [hq] at hm; simp [List.isEmpty] at hm
    simp [hm, hnil]
  · have hm' : fbd.metadata.isEmpty = false := by
      cases hq : fbd.metadata.isEmpty with
      | false => rfl
      | true => exact absurd hq hm
    simp [hm']

theorem layerTomlRoundTrip (lbd : LayerBuildDefinition) (t : LayerToml)
    (h : layerBuildDefinitionToTomlTable lbd = some t) :
    tomlTableToLayerBuildDefinition lbd.uuid t = { lbd with layer := none } := by
  cases hl : lbd.layer with
  | none => simp [layerBuildDefinitionToTomlTable, hl] at h
  | some l =>
    simp only [layerBuildDefinitionToTomlTable, hl, Option.map_some', Option.some.injEq] at h
    rw [← h]
    rfl

theorem optionTraverseLayers {lbds : List LayerBuildDefinition}
    {out : List (String × LayerToml)}
    (h : optionTraverse
        (fun lbd => (layerBuildDefinitionToTomlTable lbd).map fun t => (lbd.uuid, t))
        lbds = some out) :
    out.map (fun kv => tomlTableToLayerBuildDefinition kv.1 kv.2)
      = lbds.map (fun lbd => { lbd with layer := none }) := by
  induction lbds generalizing out with
  | nil =>
    simp only [optionTraverse, Option.some.injEq] at h
    rw [← h]
    rfl
  | cons lbd rest ih =>
    unfold optionTraverse at h
    cases hf : (layerBuildDefinitionToTomlTable lbd).map (fun t => (lbd.uuid, t)) with
    | none => rw [hf] at h; exact absurd h (by simp)
    | some c =>
      rw [hf] at h
      cases hr : optionTraverse
          (fun lbd => (layerBuildDefinitionToTomlTable lbd).map fun t => (lbd.uuid, t))
          rest with
      | none => rw [hr] at h; exact absurd h (by simp)
      | some cs =>
        rw [hr] at h
        simp only [Option.some.injEq] at h
        obtain ⟨t, ht, hc⟩ := Option.map_eq_some'.mp hf
        subst hc
        rw [← h]
        have hhead : tomlTableToLayerBuildDefinition (lbd.uuid, t).1 (lbd.uuid, t).2
            = { lbd with layer := none } := layerTomlRoundTrip lbd t ht
        simp [hhead, ih hr]

/-- C7: writing a graph to the persisted document and reading it back yields
function definitions identical to the originals except for an emptied
function list, and layer definitions identical except for a null attached
layer — in particular identifiers, source locations, runtimes, build
methods, compatible runtimes, metadata and checksums all round-trip. -/
theorem writeReadRoundTrip (g : BuildGraph) (doc : PersistedDoc)
    (h : writeGraph g = some doc) :
    (graphOfDoc doc).function_build_definitions
        = g.function_build_definitions.map (fun fbd => { fbd with functions := [] })
    ∧ (graphOfDoc doc).layer_build_definitions
        = g.layer_build_definitions.map (fun lbd => { lbd with layer := none }) := by
  unfold writeGraph at h
  cases ht : optionTraverse
      (fun lbd => (layerBuildDefinitionToTomlTable lbd).map fun t => (lbd.uuid, t))
      g.layer_build_definitions with
  | none => rw [ht] at h; exact absurd h (by simp)
  | some layers =>
    rw [ht] at h
    simp only [Option.map_some', Option.some.injEq] at h
    rw [← h]
    constructor
    · simp only [graphOfDoc, List.map_map]
      exact List.map_congr_left fun fbd _ => functionTomlRoundTrip fbd
    · exact optionTraverseLayers ht

def c7Graph : BuildGraph :=
  { function_build_definitions :=
      [{ uuid := "f-uuid", source_md5 := "f-md5", runtime := "python3.8", codeuri := "fn",
         metadata := [("BuildMethod", "pip")], functions := [⟨"F", "f.h", "F"⟩] }]
    layer_build_definitions :=
      [{ uuid := "l-uuid", source_md5 := "l-md5", name := "L", codeuri := "ly",
         build_method := some "python3.8", compatible_runtimes := ["python3.8"],
         layer := some ⟨"L", "ly", some "python3.8", ["python3.8"]⟩ }] }

def c7Doc : PersistedDoc :=
  { function_build_definitions :=
      [("f-uuid", { codeuri := "fn", runtime := "python3.8", source_md5 := "f-md5",
                    functions := ["F"], metadata := some [("BuildMethod", "pip")] })]
    layer_build_definitions :=
      [("l-uuid", { layer_name := "L", codeuri := "ly", build_method := some "python3.8",
                    compatible_runtimes := ["python3.8"], source_md5 := "l-md5",
                    layer := "L" })] }

theorem writeReadRoundTrip_witness :
    (graphOfDoc c7Doc).function_build_definitions
        = c7Graph.function_build_definitions.map (fun fbd => { fbd with functions := [] })
    ∧ (graphOfDoc c7Doc).layer_build_definitions
        = c7Graph.layer_build_definitions.map (fun lbd => { lbd with layer := none }) :=
  writeReadRoundTrip c7Graph c7Doc (by decide)

/-! ## Fan-out lemmas -/

theorem fanOutAux_fs_preserve {α : Type} (src build_dir : String) (v : Option α) :
    ∀ (fns : List PyFunction) (d : PyDict) (fs : FS α),
      fs src = v → ∀ p, fs p = v → (fanOutAux src build_dir d fs fns).2 p = v := by
  intro fns
  induction fns with
  | nil => intro d fs _ p hp; exact hp
  | cons f rest ih =>
    intro d fs hsrc p hp
    unfold fanOutAux
    apply ih
    · unfold copytree
      simp [hsrc]
    · unfold copytree
      by_cases h : p = pathJoin build_dir f.name <;> simp [h, hsrc, hp]

theorem fanOutAux_fs_mem {α : Type} (src build_dir : String) (v : Option α) :
    ∀ (fns : List PyFunction) (d : PyDict) (fs : FS α), fs src = v →
      ∀ f ∈ fns, (fanOutAux src build_dir d fs fns).2 (pathJoin build_dir f.name) = v := by
  intro fns
  induction fns with
  | nil => intro d fs _ f hf; cases hf
  | cons f0 rest ih =>
    intro d fs hsrc f hf
    unfold fanOutAux
    rcases List.mem_cons.mp hf with rfl | hrest
    · apply fanOutAux_fs_preserve src build_dir v rest _ _
      · unfold copytree
        simp [hsrc]
      · unfold copytree
        simp [hsrc]
    · apply ih _ _ _ f hrest
      unfold copytree
      simp [hsrc]

theorem dictInsert_fresh {d : PyDict} {k v : String}
    (h : ∀ p ∈ d, p.1 ≠ k) : dictInsert d k v = d ++ [(k, v)] := by
  unfold dictInsert
  have hany : (d.any fun p => p.1 == k) = false := by
    rw [List.any_eq_false]
    intro p hp
    simp [h p hp]
  simp [hany]

theorem fanOutAux_dict {α : Type} (src build_dir : String) :
    ∀ (fns : List PyFunction) (d : PyDict) (fs : FS α),
      (fns.map PyFunction.name).Nodup →
      (∀ f ∈ fns, ∀ p ∈ d, p.1 ≠ f.name) →
      (fanOutAux src build_dir d fs fns).1
        = d ++ fns.map (fun f => (f.name, pathJoin build_dir f.name)) := by
  intro fns
  induction fns with
  | nil => intro d fs _ _; simp [fanOutAux]
  | cons f0 rest ih =>
    intro d fs hnd hfresh
    simp only [List.map_cons, List.nodup_cons] at hnd
    unfold fanOutAux
    rw [dictInsert_fresh (hfresh f0 (List.mem_cons_self _ _))]
    have hfresh' : ∀ f ∈ rest,
        ∀ p ∈ d ++ [(f0.name, pathJoin build_dir f0.name)], p.1 ≠ f.name := by
      intro f hf p hp
      rcases List.mem_append.mp hp with hpd | hps
      · exact hfresh f (List.mem_cons_of_mem _ hf) p hpd
      · have hpv : p = (f0.name, pathJoin build_dir f0.name) := by simpa using hps
        rw [hpv]
        intro hey
        apply hnd.1
        rw [show f0.name = f.name from hey]
        exact List.mem_map_of_mem PyFunction.name hf
    rw [ih _ _ hnd.2 hfresh']
    simp

/-! ## Claim C5: default strategy fan-out -/

/-- C5: on a definition with at least one attached function, the default
strategy's single-definition build invokes the external callback exactly
once — with the first attached function's name and handler, the
definition's codeuri, runtime and metadata, and the temporary directory —
and returns one entry per attached function (unit names being distinct),
each mapping the function's name to its own output directory holding a copy
of the single built artifact; a definition with no attached functions fails
with the empty-definition error. -/
theorem defaultBuildFanOut {α : Type}
    (buildFunction : String → String → String → String → String → PyDict → α)
    (build_dir tempDir : String) (fbd : FunctionBuildDefinition) (fs : FS α)
    (hnames : (fbd.functions.map PyFunction.name).Nodup) :
    (fbd.functions = [] →
      defaultBuildSingleFunctionDefinition buildFunction build_dir tempDir fbd fs
        = .error (.invalidBuildGraph
            "Build definition does not have any function definition to build"))
    ∧ ∀ f0 rest, fbd.functions = f0 :: rest →
        buildResultCalls
            (defaultBuildSingleFunctionDefinition buildFunction build_dir tempDir fbd fs)
          = [{ name := f0.name, codeuri := fbd.codeuri, runtime := fbd.runtime,
               handler := f0.handler, directory := tempDir, metadata := fbd.metadata }]
        ∧ buildResultDict
            (defaultBuildSingleFunctionDefinition buildFunction build_dir tempDir fbd fs)
          = fbd.functions.map (fun f => (f.name, pathJoin build_dir f.name))
        ∧ (buildResultDict
            (defaultBuildSingleFunctionDefinition buildFunction build_dir tempDir fbd fs)).length
          = fbd.functions.length
        ∧ ∀ f ∈ fbd.functions,
            buildResultFS (defaultBuildSingleFunctionDefinition buildFunction build_dir tempDir fbd fs)
                (pathJoin build_dir f.name)
              = some (buildFunction f0.name fbd.codeuri fbd.runtime f0.handler tempDir
                  fbd.metadata) := by
  constructor
  · intro h
    simp [defaultBuildSingleFunctionDefinition, h]
  · intro f0 rest hcons
    rw [hcons] at hnames
    have hre : defaultBuildSingleFunctionDefinition buildFunction build_dir tempDir fbd fs
        = .ok ((fanOut tempDir build_dir
                (fun p => if p = tempDir then
                    some (buildFunction f0.name fbd.codeuri fbd.runtime f0.handler tempDir
                      fbd.metadata)
                  else fs p) (f0 :: rest)).1,
            (fanOut tempDir build_dir
                (fun p => if p = tempDir then
                    some (buildFunction f0.name fbd.codeuri fbd.runtime f0.handler tempDir
                      fbd.metadata)
                  else fs p) (f0 :: rest)).2,
            [{ name := f0.name, codeuri := fbd.codeuri, runtime := fbd.runtime,
               handler := f0.handler, directory := tempDir, metadata := fbd.metadata }]) := by
      unfold defaultBuildSingleFunctionDefinition
      rw [hcons]
    have hdict : (fanOut tempDir build_dir
          (fun p => if p = tempDir then
              some (buildFunction f0.name fbd.codeuri fbd.runtime f0.handler tempDir
                fbd.metadata)
            else fs p) (f0 :: rest)).1
        = (f0 :: rest).map (fun f => (f.name, pathJoin build_dir f.name)) := by
      unfold fanOut
      rw [fanOutAux_dict tempDir build_dir (f0 :: rest) [] _ hnames (by simp)]
      simp
    refine ⟨?_, ?_, ?_, ?_⟩
    · rw [hre]; rfl
    · rw [hre, hcons]
      simpa [buildResultDict] using hdict
    · rw [hre, hcons]
      simp [buildResultDict, hdict]
    · intro f hf
      rw [hcons] at hf
      rw [hre]
      show (fanOut tempDir build_dir _ (f0 :: rest)).2 (pathJoin build_dir f.name) = _
      unfold fanOut
      apply fanOutAux_fs_mem tempDir build_dir _ (f0 :: rest) [] _ _ f hf
      simp

def c5Def : FunctionBuildDefinition :=
  { uuid := "u5", source_md5 := "", runtime := "python3.8", codeuri := "five",
    metadata := [], functions := [⟨"Fst", "fst.h", "Fst"⟩, ⟨"Snd", "snd.h", "Snd"⟩] }

def c5BuildFunction (name codeuri runtime handler directory : String)
    (metadata : PyDict) : String :=
  name ++ codeuri ++ runtime ++ handler ++ directory ++ String.join (metadata.map Prod.fst)

theorem defaultBuildFanOut_witness :
    buildResultCalls
        (defaultBuildSingleFunctionDefinition c5BuildFunction "bdir" "tmp" c5Def (fun _ => none))
      = [{ name := "Fst", codeuri := "five", runtime := "python3.8",
           handler := "fst.h", directory := "tmp", metadata := [] }] := by
  have h := (defaultBuildFanOut c5BuildFunction "bdir" "tmp" c5Def (fun _ => none)
      (by decide)).2 ⟨"Fst", "fst.h", "Fst"⟩ [⟨"Snd", "snd.h", "Snd"⟩] rfl
  exact h.1

/-! ## Claim C3: cached strategy semantics -/

/-- C3: the cached strategy invokes the delegate's single-definition build
iff the cache directory keyed by the definition's identifier is absent or
the current source checksum differs from the stored one; in that
invalid-cache case it propagates the delegate's result, stores the current
checksum on the definition, and replaces the cache directory content with
the first returned artifact; with a valid cache it invokes no build
callback and maps every attached function's name to a copy of the cached
artifact placed in that function's output directory. -/
theorem cachedBuildCacheSemantics {α : Type}
    (delegate : FunctionBuildDefinition → FS α → Except BuildError (PyDict × FS α))
    (dirChecksum : String → String) (base_dir build_dir cache_dir : String)
    (fbd : FunctionBuildDefinition) (fs : FS α)
    (hnames : (fbd.functions.map PyFunction.name).Nodup) :
    cachedResultInvoked
        (cachedBuildSingleFunctionDefinition delegate dirChecksum base_dir build_dir
          cache_dir fbd fs)
      = ((fs (pathJoin cache_dir fbd.uuid)).isNone
          || (fbd.source_md5 != dirChecksum (pathJoin base_dir fbd.codeuri)))
    ∧ (((fs (pathJoin cache_dir fbd.uuid)).isNone
          || (fbd.source_md5 != dirChecksum (pathJoin base_dir fbd.codeuri))) = true →
        (∀ e, delegate fbd fs = .error e →
          cachedBuildSingleFunctionDefinition delegate dirChecksum base_dir build_dir
              cache_dir fbd fs
            = .error e)
        ∧ ∀ d fs1, delegate fbd fs = .ok (d, fs1) →
            cachedResultDict
                (cachedBuildSingleFunctionDefinition delegate dirChecksum base_dir build_dir
                  cache_dir fbd fs)
              = d
            ∧ cachedResultDef
                (cachedBuildSingleFunctionDefinition delegate dirChecksum base_dir build_dir
                  cache_dir fbd fs)
              = some { fbd with source_md5 := dirChecksum (pathJoin base_dir fbd.codeuri) }
            ∧ ∀ k v rest2, d = (k, v) :: rest2 → v ≠ pathJoin cache_dir fbd.uuid →
                cachedResultFS
                    (cachedBuildSingleFunctionDefinition delegate dirChecksum base_dir
                      build_dir cache_dir fbd fs)
                    (pathJoin cache_dir fbd.uuid)
                  = fs1 v)
    ∧ (((fs (pathJoin cache_dir fbd.uuid)).isNone
          || (fbd.source_md5 != dirChecksum (pathJoin base_dir fbd.codeuri))) = false →
        cachedResultDict
            (cachedBuildSingleFunctionDefinition delegate dirChecksum base_dir build_dir
              cache_dir fbd fs)
          = fbd.functions.map (fun f => (f.name, pathJoin build_dir f.name))
        ∧ cachedResultDef
            (cachedBuildSingleFunctionDefinition delegate dirChecksum base_dir build_dir
              cache_dir fbd fs)
          = some fbd
        ∧ ∀ f ∈ fbd.functions,
            cachedResultFS
                (cachedBuildSingleFunctionDefinition delegate dirChecksum base_dir build_dir
                  cache_dir fbd fs)
                (pathJoin build_dir f.name)
              = fs (pathJoin cache_dir fbd.uuid)) := by
  refine ⟨?_, ?_, ?_⟩
  · cases hc : ((fs (pathJoin cache_dir fbd.uuid)).isNone
        || (fbd.source_md5 != dirChecksum (pathJoin base_dir fbd.codeuri))) with
    | true =>
      cases hdel : delegate fbd fs with
      | error e =>
        simp [cachedBuildSingleFunctionDefinition, hc, hdel, cachedResultInvoked]
      | ok pr =>
        obtain ⟨d, fs1⟩ := pr
        simp [cachedBuildSingleFunctionDefinition, hc, hdel, cachedResultInvoked]
    | false =>
      simp [cachedBuildSingleFunctionDefinition, hc, cachedResultInvoked]
  · intro hc
    refine ⟨?_, ?_⟩
    · intro e hdel
      simp [cachedBuildSingleFunctionDefinition, hc, hdel]
    · intro d fs1 hdel
      have hres : cachedBuildSingleFunctionDefinition delegate dirChecksum base_dir build_dir
          cache_dir fbd fs
          = .ok (d,
              { fbd with source_md5 := dirChecksum (pathJoin base_dir fbd.codeuri) },
              (match d with
                | [] =>
                  if (fs1 (pathJoin cache_dir fbd.uuid)).isSome then
                    rmtree (pathJoin cache_dir fbd.uuid) fs1
                  else fs1
                | (_, v) :: _ =>
                  copytree v (pathJoin cache_dir fbd.uuid)
                    (if (fs1 (pathJoin cache_dir fbd.uuid)).isSome then
                      rmtree (pathJoin cache_dir fbd.uuid) fs1
                    else fs1)),
              true) := by
        simp only [cachedBuildSingleFunctionDefinition, hc, hdel]
        cases d with
        | nil => rfl
        | cons p tl => rfl
      refine ⟨by rw [hres]; rfl, by rw [hres]; rfl, ?_⟩
      intro k v rest2 hd hv
      subst hd
      rw [hres]
      show (copytree v (pathJoin cache_dir fbd.uuid)
          (if (fs1 (pathJoin cache_dir fbd.uuid)).isSome then
            rmtree (pathJoin cache_dir fbd.uuid) fs1
          else fs1)) (pathJoin cache_dir fbd.uuid) = fs1 v
      unfold copytree rmtree
      by_cases hcache : (fs1 (pathJoin cache_dir fbd.uuid)).isSome <;> simp [hcache, hv]
  · intro hc
    have hres : cachedBuildSingleFunctionDefinition delegate dirChecksum base_dir build_dir
        cache_dir fbd fs
        = .ok ((fanOut (pathJoin cache_dir fbd.uuid) build_dir fs fbd.functions).1, fbd,
            (fanOut (pathJoin cache_dir fbd.uuid) build_dir fs fbd.functions).2, false) := by
      simp [cachedBuildSingleFunctionDefinition, hc]
    refine ⟨?_, by rw [hres]; rfl, ?_⟩
    · rw [hres]
      show (fanOut (pathJoin cache_dir fbd.uuid) build_dir fs fbd.functions).1 = _
      unfold fanOut
      rw [fanOutAux_dict (pathJoin cache_dir fbd.uuid) build_dir fbd.functions [] fs hnames
        (by simp)]
      simp
    · intro f hf
      rw [hres]
      show (fanOut (pathJoin cache_dir fbd.uuid) build_dir fs fbd.functions).2
          (pathJoin build_dir f.name) = _
      unfold fanOut
      exact fanOutAux_fs_mem (pathJoin cache_dir fbd.uuid) build_dir
        (fs (pathJoin cache_dir fbd.uuid)) fbd.functions [] fs rfl f hf

def c3Def : FunctionBuildDefinition :=
  { uuid := "u3", source_md5 := "old-hash", runtime := "python3.8", codeuri := "three",
    metadata := [], functions := [⟨"Fn3", "fn3.h", "Fn3"⟩] }

def c3Delegate (sig : FunctionBuildDefinition) (fs : FS String) :
    Except BuildError (PyDict × FS String) :=
  .ok ([(sig.uuid, pathJoin "bdir" sig.uuid)],
    fun p => if p = pathJoin "bdir" sig.uuid then some "artifact" else fs p)

def c3Checksum (dir : String) : String := dir ++ "-hash"

theorem cachedBuildCacheSemantics_witness :
    cachedResultInvoked
        (cachedBuildSingleFunctionDefinition c3Delegate c3Checksum "base" "bdir" "cache"
          c3Def (fun _ => none))
      = true := by
  have h := cachedBuildCacheSemantics c3Delegate c3Checksum "base" "bdir" "cache" c3Def
    (fun _ => none) (by decide)
  rw [h.1]
  rfl

/-! ## Claim C8: parallel strategy equivalence -/

theorem dictUpdate_cons (d : PyDict) (p : String × String) (rest : PyDict) :
    dictUpdate d (p :: rest) = dictUpdate (dictInsert d p.1 p.2) rest := rfl

theorem dictUpdate_append (e : PyDict) :
    ∀ d : PyDict, ((d ++ e).map Prod.fst).Nodup → dictUpdate d e = d ++ e := by
  induction e with
  | nil => intro d _; simp [dictUpdate]
  | cons p rest ih =>
    intro d h
    rw [dictUpdate_cons]
    have hfresh : ∀ q ∈ d, q.1 ≠ p.1 := by
      intro q hq heq
      rw [List.map_append] at h
      have hdisj := (List.nodup_append.mp h).2.2
      exact hdisj (List.mem_map_of_mem Prod.fst hq)
        (by rw [heq, List.map_cons]; exact List.mem_cons_self _ _)
    rw [dictInsert_fresh hfresh]
    have h2 : (((d ++ [(p.1, p.2)]) ++ rest).map Prod.fst).Nodup := by
      rw [List.append_assoc]
      exact h
    rw [ih (d ++ [(p.1, p.2)]) h2, List.append_assoc]
    rfl

theorem foldlDictUpdateFlatten (l : List PyDict) :
    ∀ acc : PyDict, ((acc ++ l.flatten).map Prod.fst).Nodup →
      l.foldl dictUpdate acc = acc ++ l.flatten := by
  induction l with
  | nil => intro acc _; simp
  | cons e rest ih =>
    intro acc h
    simp only [List.foldl_cons]
    have hsub : ((acc ++ e).map Prod.fst).Nodup := by
      apply h.sublist
      apply List.Sublist.map
      rw [List.flatten_cons, ← List.append_assoc]
      exact List.sublist_append_left (acc ++ e) rest.flatten
    rw [dictUpdate_append e acc hsub]
    have h2 : (((acc ++ e) ++ rest.flatten).map Prod.fst).Nodup := by
      rw [List.append_assoc, ← List.flatten_cons]
      exact h
    rw [ih (acc ++ e) h2, List.flatten_cons, List.append_assoc]

theorem parallelMerge_flatten {l : List PyDict}
    (h : (l.flatten.map Prod.fst).Nodup) : parallelMerge l = l.flatten := by
  have haux := foldlDictUpdateFlatten l [] (by simpa using h)
  simpa [parallelMerge] using haux

theorem strategyBuild_eq_flatten (bsf : FunctionBuildDefinition → PyDict)
    (bsl : LayerBuildDefinition → PyDict) (g : BuildGraph)
    (h : ((parallelTaskResults bsf bsl g).flatten.map Prod.fst).Nodup) :
    strategyBuild bsf bsl g = (parallelTaskResults bsf bsl g).flatten := by
  have hflat : (parallelTaskResults bsf bsl g).flatten
      = (g.function_build_definitions.map bsf).flatten
        ++ (g.layer_build_definitions.map bsl).flatten := by
    unfold parallelTaskResults
    exact List.flatten_append _ _
  rw [hflat] at h
  rw [List.map_append] at h
  obtain ⟨hF, hL, _⟩ := List.nodup_append.mp h
  have hFfold : g.function_build_definitions.foldl
        (fun acc fbd => dictUpdate acc (bsf fbd)) []
      = (g.function_build_definitions.map bsf).flatten := by
    rw [← List.foldl_map bsf dictUpdate]
    have haux := foldlDictUpdateFlatten (g.function_build_definitions.map bsf) []
      (by simpa using hF)
    simpa using haux
  have hLfold : g.layer_build_definitions.foldl
        (fun acc lbd => dictUpdate acc (bsl lbd)) []
      = (g.layer_build_definitions.map bsl).flatten := by
    rw [← List.foldl_map bsl dictUpdate]
    have haux := foldlDictUpdateFlatten (g.layer_build_definitions.map bsl) []
      (by simpa using hL)
    simpa using haux
  unfold strategyBuild
  rw [hFfold, hLfold, hflat]
  have hupd1 : dictUpdate [] (g.function_build_definitions.map bsf).flatten
      = (g.function_build_definitions.map bsf).flatten := by
    have haux := dictUpdate_append (g.function_build_definitions.map bsf).flatten []
      (by simpa using hF)
    simpa using haux
  rw [hupd1]
  exact dictUpdate_append (g.layer_build_definitions.map bsl).flatten
    (g.function_build_definitions.map bsf).flatten
    (by rw [List.map_append]; exact List.nodup_append.mpr ⟨hF, hL, ‹_›⟩)

/-- C8: the unit-to-artifact mapping produced by the (spec-modelled)
parallel strategy — the per-definition task results merged in an arbitrary
completion order — contains exactly the same key-value pairs as the default
strategy's sequential build of the same graph, provided the per-definition
result keys do not collide (each unit belongs to exactly one definition). -/
theorem parallelEquivalentToDefault (bsf : FunctionBuildDefinition → PyDict)
    (bsl : LayerBuildDefinition → PyDict) (g : BuildGraph) (completed : List PyDict)
    (hkeys : ((parallelTaskResults bsf bsl g).flatten.map Prod.fst).Nodup)
    (hperm : completed.Perm (parallelTaskResults bsf bsl g)) :
    ∀ q, q ∈ parallelMerge completed ↔ q ∈ strategyBuild bsf bsl g := by
  have hjoin : completed.flatten.Perm (parallelTaskResults bsf bsl g).flatten :=
    hperm.flatten
  have hkeys2 : (completed.flatten.map Prod.fst).Nodup :=
    ((hjoin.map Prod.fst).nodup_iff).mpr hkeys
  simp only [parallelMerge_flatten hkeys2, strategyBuild_eq_flatten bsf bsl g hkeys]
  intro q
  exact hjoin.mem_iff

def c8Bsf (fbd : FunctionBuildDefinition) : PyDict :=
  [(fbd.uuid, pathJoin "bdir" fbd.uuid)]

def c8Bsl (lbd : LayerBuildDefinition) : PyDict :=
  [(lbd.uuid, pathJoin "bdir" lbd.uuid)]

def c8Graph : BuildGraph :=
  { function_build_definitions :=
      [{ uuid := "u1", source_md5 := "", runtime := "python3.8", codeuri := "one",
         metadata := [], functions := [⟨"F1", "f1.h", "F1"⟩] },
       { uuid := "u2", source_md5 := "", runtime := "python3.9", codeuri := "two",
         metadata := [], functions := [⟨"F2", "f2.h", "F2"⟩] }]
    layer_build_definitions :=
      [{ uuid := "u9", source_md5 := "", name := "L9", codeuri := "nine",
         build_method := some "python3.8", compatible_runtimes := [], layer := none }] }

theorem parallelEquivalentToDefault_witness :
    (("u1", pathJoin "bdir" "u1")
        ∈ parallelMerge (parallelTaskResults c8Bsf c8Bsl c8Graph).reverse)
      ↔ ("u1", pathJoin "bdir" "u1") ∈ strategyBuild c8Bsf c8Bsl c8Graph :=
  parallelEquivalentToDefault c8Bsf c8Bsl c8Graph
    (parallelTaskResults c8Bsf c8Bsl c8Graph).reverse (by decide)
    (parallelTaskResults c8Bsf c8Bsl c8Graph).reverse_perm ("u1", pathJoin "bdir" "u1")

end SamBuild
